import Mathlib

set_option linter.unusedVariables false

/-!
Verification of the icclim generic indicator engine against its specification.

The development shallowly embeds `icclim/generic_indices/generic_indicators.py`
and `icclim/models/logical_link.py`.  Time-indexed arrays (`xarray.DataArray`)
are embedded as association lists from abstract ordinal timestamps to rational
values; the calendar accessors (`time.dt.year`, `daysinmonth`, leap years, ...)
and the resampling bucket assignment of pandas frequencies are external
capabilities of the array library and are passed as explicit functions.
Fallible Python code is embedded with `Except`/`Option`.
-/

namespace Icclim

/-- Timestamps are abstract ordinals: the order of `Time` values is the
chronological order, and period labels produced by resampling are also `Time`
values (the bucket start). -/
abbrev Time := Nat

/-- Calendar capabilities of the array library (`time.dt` accessors). -/
structure Calendar where
  yearOf : Time → Nat
  daysinmonth : Time → ℚ
  isLeap : Time → Bool
  monthOf : Time → Nat
  dayofyearOf : Time → Nat

/-- Physical units carried by the `units` attribute of an array.  Two
convertible temperature units suffice for the properties below. -/
inductive PhysUnit
  | degC
  | kelvin
  | percent
  deriving DecidableEq, Repr

/-- Value conversion between units (`xclim.core.units.convert_units_to`, an
external capability): Celsius and Kelvin differ by the 273.15 offset. -/
def convertValue : PhysUnit → PhysUnit → ℚ → ℚ
  | .degC, .kelvin, v => v + 27315 / 100
  | .kelvin, .degC, v => v - 27315 / 100
  | _, _, v => v

/-- A time-indexed numeric array together with its `units` attribute. -/
structure DataArrayQ where
  data : List (Time × ℚ)
  units : PhysUnit
  deriving Repr

/-- `xclim.core.units.convert_units_to(source, target)`: returns `source`
expressed in the units of `target`. -/
def convert_units_to (source target : DataArrayQ) : DataArrayQ :=
  { data := source.data.map (fun p => (p.1, convertValue source.units target.units p.2)),
    units := target.units }

/-- Comparison operators of `icclim.models.operator`. -/
inductive Operator
  | gt
  | lt
  | ge
  | le
  | eq
  deriving DecidableEq, Repr

/-- Pointwise evaluation of an operator, `operator(study, threshold)`. -/
def Operator.eval : Operator → ℚ → ℚ → Bool
  | .gt, a, b => decide (b < a)
  | .lt, a, b => decide (a < b)
  | .ge, a, b => decide (b ≤ a)
  | .le, a, b => decide (a ≤ b)
  | .eq, a, b => decide (a = b)

/-- The value of a threshold: either a fixed scalar or a day-of-year varying
percentile array (`PercentileDataArray`).  A day-of-year percentile carries its
per-day-of-year values, the optional `climatology_bounds` attribute and its own
time index (used by `_get_ref_period_slice`). -/
inductive ThresholdValue
  | scalar (q : ℚ)
  | doyPer (perDoy : Nat → ℚ) (climatology_bounds : Option (Time × Time)) (times : List Time)

/-- A threshold: an operator plus a value (`icclim.models.threshold`, data
carrier only; the deciding logic lives in `generic_indicators.py`). -/
structure Threshold where
  operator : Operator
  value : ThresholdValue

/-- `Threshold.is_doy_per_threshold`: whether the value is a day-of-year
percentile array. -/
def Threshold.is_doy_per_threshold (t : Threshold) : Bool :=
  match t.value with
  | .scalar _ => false
  | .doyPer _ _ _ => true

/-- Projection of a threshold value onto the study dates: a scalar is constant
in time, a day-of-year percentile is resampled by calendar day of year
(`xclim.core.calendar.resample_doy`, external capability). -/
def resolveValue (cal : Calendar) : ThresholdValue → Time → ℚ
  | .scalar q, _ => q
  | .doyPer perDoy _ _, t => perDoy (cal.dayofyearOf t)

/-- A climate variable: studied data, optional threshold, reference flag
(`icclim.models.climate_variable`, data carrier). -/
structure ClimateVariable where
  studied_data : DataArrayQ
  threshold : Option Threshold
  is_reference : Bool

/-- `_get_ref_period_slice`: the reference period of a percentile array, from
its `climatology_bounds` attribute when present, otherwise from the first and
last entries of its own time index.  The scalar case is unreachable: every call
is guarded by `is_doy_per_threshold`. -/
def _get_ref_period_slice : ThresholdValue → Time × Time
  | .doyPer _ (some bds) _ => bds
  | .doyPer _ none ts => (ts.headD 0, ts.getLastD 0)
  | .scalar _ => (0, 0)

/-- `np.unique(... .year)` over a time index: the distinct years. -/
def uniqueYears (cal : Calendar) (times : List Time) : List Nat :=
  (times.map cal.yearOf).dedup

/-- `_must_run_bootstrap`: bootstrap runs only for day-of-year percentile
thresholds whose reference period overlaps the study period in strictly more
than one year and strictly fewer than all study years. -/
def must_run_bootstrap (cal : Calendar) (da_times : List Time)
    (threshold : Option Threshold) : Bool :=
  match threshold with
  | none => false
  | some t =>
    if !t.is_doy_per_threshold then false
    else
      let s := _get_ref_period_slice t.value
      let study_years := uniqueYears cal da_times
      let overlapping_years :=
        uniqueYears cal (da_times.filter (fun d => decide (s.1 ≤ d) && decide (d ≤ s.2)))
      decide (1 < overlapping_years.length) && decide (overlapping_years.length < study_years.length)

/-- Spec-side count for C1: the number of distinct study years having at least
one date inside the reference period `[lo, hi]`. -/
def overlappingYearCount (cal : Calendar) (times : List Time) (lo hi : Time) : Nat :=
  ((times.map cal.yearOf).toFinset.filter
    (fun y => ∃ d ∈ times.filter (fun d => decide (lo ≤ d) && decide (d ≤ hi)),
       cal.yearOf d = y)).card

/-- Spec-side count for C1: the total number of distinct study years. -/
def totalYearCount (cal : Calendar) (times : List Time) : Nat :=
  (times.map cal.yearOf).toFinset.card

theorem overlappingYearCount_eq (cal : Calendar) (times : List Time) (lo hi : Time) :
    (uniqueYears cal
      (times.filter (fun d => decide (lo ≤ d) && decide (d ≤ hi)))).length
      = overlappingYearCount cal times lo hi := by
  rw [uniqueYears, ← List.card_toFinset, overlappingYearCount]
  congr 1
  ext y
  simp only [List.mem_toFinset, List.mem_map, List.mem_filter, Finset.mem_filter]
  constructor
  · rintro ⟨d, hd, rfl⟩
    exact ⟨⟨d, hd.1, rfl⟩, d, ⟨hd.1, hd.2⟩, rfl⟩
  · rintro ⟨-, d, hd, rfl⟩
    exact ⟨d, hd, rfl⟩

/-- C1: for every study series and threshold, `_must_run_bootstrap` returns
true iff the threshold exists, is day-of-year percentile based, and the number
of study years overlapping the percentile reference period is strictly between
1 and the total number of study years; in particular it is false at overlap
counts 0, 1 and `totalYearCount`, and false whenever the threshold is absent or
not day-of-year percentile based. -/
theorem must_run_bootstrap_iff (cal : Calendar) (times : List Time)
    (thr : Option Threshold) :
    must_run_bootstrap cal times thr = true ↔
      ∃ t, thr = some t ∧ t.is_doy_per_threshold = true ∧
        1 < overlappingYearCount cal times
              (_get_ref_period_slice t.value).1 (_get_ref_period_slice t.value).2 ∧
        overlappingYearCount cal times
              (_get_ref_period_slice t.value).1 (_get_ref_period_slice t.value).2
          < totalYearCount cal times := by
  cases thr with
  | none => simp [must_run_bootstrap]
  | some t =>
    rw [must_run_bootstrap]
    cases h : t.is_doy_per_threshold with
    | false => simp [h]
    | true =>
      simp only [h, Bool.not_true, Bool.false_eq_true, if_false, Bool.and_eq_true,
        decide_eq_true_eq]
      rw [overlappingYearCount_eq]
      constructor
      · rintro ⟨h1, h2⟩
        refine ⟨t, rfl, h, h1, ?_⟩
        rw [totalYearCount, List.card_toFinset]
        exact h2
      · rintro ⟨u, hu, -, h1, h2⟩
        cases hu
        refine ⟨h1, ?_⟩
        rw [totalYearCount, List.card_toFinset] at h2
        exact h2

/-- Python `functools.reduce` without an initializer: raises `TypeError` on an
empty sequence, embedded as `none`. -/
def pyReduce (f : α → α → α) : List α → Option α
  | [] => none
  | x :: xs => some (xs.foldl f x)

/-- Elementwise `np.logical_or` on two boolean arrays. -/
def orArrays (a b : List Bool) : List Bool := List.zipWith or a b

/-- Elementwise `np.logical_and` on two boolean arrays. -/
def andArrays (a b : List Bool) : List Bool := List.zipWith and a b

/-- `icclim.models.logical_link.LogicalLink`: a named combination of a list of
boolean arrays into one boolean array. -/
structure LogicalLink where
  name : String
  compute : List (List Bool) → Option (List Bool)

namespace LogicalLinkRegistry

/-- `LogicalLinkRegistry.LOGICAL_OR`: `reduce(np.logical_or, data_list)`. -/
def LOGICAL_OR : LogicalLink := ⟨"or", pyReduce orArrays⟩

/-- `LogicalLinkRegistry.LOGICAL_AND`: `reduce(np.logical_and, data_list)`. -/
def LOGICAL_AND : LogicalLink := ⟨"and", pyReduce andArrays⟩

end LogicalLinkRegistry

theorem foldl_right_extract (f : α → α → α) (hc : ∀ a b, f a b = f b a)
    (ha : ∀ a b c, f (f a b) c = f a (f b c)) :
    ∀ (ys : List α) (a b : α), ys.foldl f (f a b) = f (ys.foldl f b) a := by
  intro ys
  induction ys with
  | nil => intro a b; exact hc a b
  | cons c cs ih =>
    intro a b
    show cs.foldl f (f (f a b) c) = f ((c :: cs).foldl f b) a
    rw [ha a b c, ih a (f b c)]
    rfl

theorem pyReduce_append_singleton (f : α → α → α) :
    ∀ (l : List α) (a : α),
      pyReduce f (l ++ [a]) = some ((pyReduce f l).elim a (fun b => f b a)) := by
  intro l a
  cases l with
  | nil => rfl
  | cons x xs =>
    show some ((xs ++ [a]).foldl f x) = some (f (xs.foldl f x) a)
    rw [List.foldl_append]
    rfl

theorem pyReduce_reverse (f : α → α → α) (hc : ∀ a b, f a b = f b a)
    (ha : ∀ a b c, f (f a b) c = f a (f b c)) :
    ∀ l : List α, pyReduce f l.reverse = pyReduce f l := by
  intro l
  induction l with
  | nil => rfl
  | cons x xs ih =>
    rw [List.reverse_cons, pyReduce_append_singleton, ih]
    cases xs with
    | nil => rfl
    | cons y ys =>
      show some (f (ys.foldl f y) x) = some (ys.foldl f (f x y))
      rw [foldl_right_extract f hc ha ys x y]

theorem orArrays_comm : ∀ a b, orArrays a b = orArrays b a := by
  intro a
  induction a with
  | nil => intro b; cases b <;> rfl
  | cons x xs ih =>
    intro b
    cases b with
    | nil => rfl
    | cons y ys =>
      show (x || y) :: orArrays xs ys = (y || x) :: orArrays ys xs
      rw [Bool.or_comm, ih ys]

theorem andArrays_comm : ∀ a b, andArrays a b = andArrays b a := by
  intro a
  induction a with
  | nil => intro b; cases b <;> rfl
  | cons x xs ih =>
    intro b
    cases b with
    | nil => rfl
    | cons y ys =>
      show (x && y) :: andArrays xs ys = (y && x) :: andArrays ys xs
      rw [Bool.and_comm, ih ys]

theorem orArrays_assoc : ∀ a b c, orArrays (orArrays a b) c = orArrays a (orArrays b c) := by
  intro a
  induction a with
  | nil => intro b c; rfl
  | cons x xs ih =>
    intro b c
    cases b with
    | nil => rfl
    | cons y ys =>
      cases c with
      | nil => rfl
      | cons z zs =>
        show (x || y || z) :: orArrays (orArrays xs ys) zs
          = (x || (y || z)) :: orArrays xs (orArrays ys zs)
        rw [Bool.or_assoc, ih ys zs]

theorem andArrays_assoc : ∀ a b c, andArrays (andArrays a b) c = andArrays a (andArrays b c) := by
  intro a
  induction a with
  | nil => intro b c; rfl
  | cons x xs ih =>
    intro b c
    cases b with
    | nil => rfl
    | cons y ys =>
      cases c with
      | nil => rfl
      | cons z zs =>
        show (x && y && z) :: andArrays (andArrays xs ys) zs
          = (x && (y && z)) :: andArrays xs (andArrays ys zs)
        rw [Bool.and_assoc, ih ys zs]

/-- C9: for both logical links AND and OR, applied to any non-empty list of
equally-shaped boolean series, the result equals the result on the reversed
list (order independence). -/
theorem logical_link_order_independence (n : Nat) (l : List (List Bool))
    (hne : l ≠ []) (hshape : ∀ s ∈ l, s.length = n) :
    LogicalLinkRegistry.LOGICAL_AND.compute l
        = LogicalLinkRegistry.LOGICAL_AND.compute l.reverse ∧
      LogicalLinkRegistry.LOGICAL_OR.compute l
        = LogicalLinkRegistry.LOGICAL_OR.compute l.reverse := by
  constructor
  · exact (pyReduce_reverse andArrays andArrays_comm andArrays_assoc l).symm
  · exact (pyReduce_reverse orArrays orArrays_comm orArrays_assoc l).symm

/-- Witness for C9 at a concrete input. -/
theorem logical_link_order_independence_witness :
    ([[true, false], [false, false]] : List (List Bool)) ≠ [] ∧
      (∀ s ∈ ([[true, false], [false, false]] : List (List Bool)), s.length = 2) ∧
      (LogicalLinkRegistry.LOGICAL_AND.compute [[true, false], [false, false]]
          = LogicalLinkRegistry.LOGICAL_AND.compute
              ([[true, false], [false, false]] : List (List Bool)).reverse ∧
        LogicalLinkRegistry.LOGICAL_OR.compute [[true, false], [false, false]]
          = LogicalLinkRegistry.LOGICAL_OR.compute
              ([[true, false], [false, false]] : List (List Bool)).reverse) :=
  ⟨by decide, by decide,
    logical_link_order_independence 2 [[true, false], [false, false]]
      (by decide) (by decide)⟩

/-- Resampling capability of the array library: the output period labels, in
order of first appearance (non-empty periods only). -/
def resampleLabels (periodOf : Time → Time) (times : List Time) : List Time :=
  (times.map periodOf).dedup

/-- The entries of a series falling into the period labelled `lab`. -/
def periodSlice (periodOf : Time → Time) (s : List (Time × α)) (lab : Time) :
    List (Time × α) :=
  s.filter (fun p => periodOf p.1 == lab)

/-- `series.resample(time=freq)`: the grouped-by-period view. -/
def resampleGroups (periodOf : Time → Time) (s : List (Time × α)) :
    List (Time × List (Time × α)) :=
  (resampleLabels periodOf (s.map Prod.fst)).map (fun l => (l, periodSlice periodOf s l))

/-- Apply a per-period reduction to a grouped view. -/
def aggGroups (agg : List α → β) (groups : List (Time × List (Time × α))) :
    List (Time × β) :=
  groups.map (fun g => (g.1, agg (g.2.map Prod.snd)))

/-- Sum of a list of rationals. -/
def sumQ (l : List ℚ) : ℚ := l.sum

/-- Maximum of a list of naturals (0 on the empty list). -/
def maxNat (l : List Nat) : Nat := l.foldr max 0

/-- `_get_single_var`: operator, data and threshold of the first climate
variable; `none` embeds the Python `IndexError` on an empty variable list. -/
def _get_single_var (climate_vars : List ClimateVariable) :
    Option (Option Operator × DataArrayQ × Option Threshold) :=
  match climate_vars with
  | [] => none
  | v :: _ =>
    match v.threshold with
    | some t => some (some t.operator, v.studied_data, some t)
    | none => some (none, v.studied_data, none)

/-- `excess`: per-period sum of `(study - thresh).clip(min=0)`.  A missing
threshold is an error (`threshold.is_doy_per_threshold` raises
`AttributeError` on `None`); `to_agg_units` only attaches unit metadata and is
not modeled. -/
def excess (cal : Calendar) (climate_vars : List ClimateVariable)
    (periodOf : Time → Time) : Option (List (Time × ℚ)) :=
  match _get_single_var climate_vars with
  | none => none
  | some (_, _, none) => none
  | some (_, study, some threshold) =>
    let thresh := resolveValue cal threshold.value
    let clipped := study.data.map (fun p => (p.1, max (p.2 - thresh p.1) 0))
    some (aggGroups sumQ (resampleGroups periodOf clipped))

/-- `deficit`: per-period sum of `(thresh - study).clip(min=0)`. -/
def deficit (cal : Calendar) (climate_vars : List ClimateVariable)
    (periodOf : Time → Time) : Option (List (Time × ℚ)) :=
  match _get_single_var climate_vars with
  | none => none
  | some (_, _, none) => none
  | some (_, study, some threshold) =>
    let thresh := resolveValue cal threshold.value
    let clipped := study.data.map (fun p => (p.1, max (thresh p.1 - p.2) 0))
    some (aggGroups sumQ (resampleGroups periodOf clipped))

theorem aggGroups_sum_clipped_nonneg (f : Time × ℚ → ℚ) (periodOf : Time → Time)
    (s : List (Time × ℚ)) (lab : Time) (v : ℚ)
    (h : (lab, v) ∈ aggGroups sumQ
      (resampleGroups periodOf (s.map (fun p => (p.1, max (f p) 0))))) :
    0 ≤ v := by
  rcases List.mem_map.mp h with ⟨g, hg, hgv⟩
  rcases List.mem_map.mp hg with ⟨l, -, hl⟩
  subst hl
  cases hgv
  apply List.sum_nonneg
  intro x hx
  rcases List.mem_map.mp hx with ⟨p, hp, rfl⟩
  have hp2 := List.mem_filter.mp hp
  rcases List.mem_map.mp hp2.1 with ⟨q, -, rfl⟩
  exact le_max_right (f q) 0

/-- C7: every per-period value produced by `excess` and by `deficit` is
non-negative, for every input series, threshold and period (clipping
invariant). -/
theorem excess_deficit_nonneg (cal : Calendar) (climate_vars : List ClimateVariable)
    (periodOf : Time → Time) (res res2 : List (Time × ℚ)) (lab lab2 : Time) (v w : ℚ) :
    (excess cal climate_vars periodOf = some res → (lab, v) ∈ res → 0 ≤ v) ∧
      (deficit cal climate_vars periodOf = some res2 → (lab2, w) ∈ res2 → 0 ≤ w) := by
  constructor
  · intro hres hmem
    rw [excess] at hres
    rcases hv : _get_single_var climate_vars with - | ⟨op, study, thr⟩
    · rw [hv] at hres; cases hres
    · rcases thr with - | t
      · rw [hv] at hres; cases hres
      · rw [hv] at hres
        cases hres
        exact aggGroups_sum_clipped_nonneg
          (fun p => p.2 - resolveValue cal t.value p.1) periodOf study.data lab v hmem
  · intro hres hmem
    rw [deficit] at hres
    rcases hv : _get_single_var climate_vars with - | ⟨op, study, thr⟩
    · rw [hv] at hres; cases hres
    · rcases thr with - | t
      · rw [hv] at hres; cases hres
      · rw [hv] at hres
        cases hres
        exact aggGroups_sum_clipped_nonneg
          (fun p => resolveValue cal t.value p.1 - p.2) periodOf study.data lab2 w hmem

/-- A concrete calendar used by the witnesses below. -/
def trivialCalendar : Calendar :=
  { yearOf := fun t => t, daysinmonth := fun _ => 31, isLeap := fun _ => false,
    monthOf := fun _ => 1, dayofyearOf := fun t => t }

/-- A concrete thresholded variable used by the witnesses below. -/
def clipWitnessVar : ClimateVariable :=
  { studied_data := { data := [(0, 5)], units := .degC },
    threshold := some { operator := .ge, value := .scalar 1 },
    is_reference := false }

/-- Witness for C7 at a concrete input. -/
theorem excess_deficit_nonneg_witness :
    excess trivialCalendar [clipWitnessVar] (fun _ => 0) = some [(0, 4)] ∧
      (0:ℚ) ≤ 4 ∧
      deficit trivialCalendar [clipWitnessVar] (fun _ => 0) = some [(0, 0)] ∧
      (0:ℚ) ≤ 0 := by
  have hex : excess trivialCalendar [clipWitnessVar] (fun _ => 0) = some [(0, 4)] := by
    simp [excess, _get_single_var, clipWitnessVar, resolveValue, aggGroups,
      resampleGroups, resampleLabels, periodSlice, sumQ, trivialCalendar]
    norm_num
  have hde : deficit trivialCalendar [clipWitnessVar] (fun _ => 0) = some [(0, 0)] := by
    simp [deficit, _get_single_var, clipWitnessVar, resolveValue, aggGroups,
      resampleGroups, resampleLabels, periodSlice, sumQ, trivialCalendar]
  refine ⟨hex, ?_, hde, ?_⟩
  · exact (excess_deficit_nonneg trivialCalendar [clipWitnessVar] (fun _ => 0)
      [(0, 4)] [(0, 0)] 0 0 4 0).1 hex (by simp)
  · exact (excess_deficit_nonneg trivialCalendar [clipWitnessVar] (fun _ => 0)
      [(0, 4)] [(0, 0)] 0 0 4 0).2 hde (by simp)

/-- Evaluate a Python list comprehension of fallible computations; the first
failure propagates. -/
def optionMap (f : α → Option β) : List α → Option (List β)
  | [] => some []
  | x :: xs =>
    match f x, optionMap f xs with
    | some y, some ys => some (y :: ys)
    | _, _ => none

/-- `_compute_exceedance` (the body of the `@percentile_bootstrap` decorated
function): project a day-of-year percentile threshold onto the study dates and
compare with the operator.  When `bootstrap` is true the decorator re-estimates
the percentiles with a leave-one-year-out procedure (external statistical
capability of xclim) and the result additionally carries the reference-period
provenance attribute; the theorems below only exercise `bootstrap = false`
paths. -/
def _compute_exceedance (cal : Calendar) (operator : Operator)
    (study : List (Time × ℚ)) (threshold : ThresholdValue) (bootstrap : Bool) :
    List (Time × Bool) :=
  study.map (fun p => (p.1, operator.eval p.2 (resolveValue cal threshold p.1)))

/-- `_compute_exceedances`: per-variable exceedances combined with the logical
link.  Every variable must carry a threshold (otherwise Python raises
`AttributeError` on `climate_var.threshold.operator`, embedded as `none`); the
link raises on an empty list of variables.  The `.squeeze()` of the singleton
bootstrap dimension is a no-op here, and all exceedance arrays share the study
time coordinate, so the merged array keeps the first one's timestamps. -/
def _compute_exceedances (cal : Calendar) (climate_vars : List ClimateVariable)
    (logical_link : LogicalLink) : Option (List (Time × Bool)) :=
  match optionMap (fun cv =>
      cv.threshold.map (fun t =>
        _compute_exceedance cal t.operator cv.studied_data.data t.value
          (must_run_bootstrap cal (cv.studied_data.data.map Prod.fst) (some t))))
    climate_vars with
  | none => none
  | some exceedances =>
    match logical_link.compute (exceedances.map (fun e => e.map Prod.snd)) with
    | none => none
    | some vals =>
      match exceedances with
      | [] => none
      | e :: _ => some ((e.map Prod.fst).zip vals)

/-- Length of the initial run of `true` values of a boolean series. -/
def leadTrue : List Bool → Nat
  | [] => 0
  | false :: _ => 0
  | true :: xs => leadTrue xs + 1

/-- Helper of `rle` tracking the previous value. -/
def rleFrom : Bool → List Bool → List Nat
  | _, [] => []
  | prev, x :: xs => (if x && !prev then leadTrue (x :: xs) else 0) :: rleFrom x xs

/-- `xclim.indices.run_length.rle(_, dim="time", index="first")` (external
capability): the first step of each run of `true` carries the run length and
every other position carries 0.  (The library returns NaN at run
continuations; those NaN are embedded as 0, which is equivalent under the
downstream crop/maximum operations that skip NaN.) -/
def rle (l : List Bool) : List Nat := rleFrom false l

/-- `sum_of_spell_lengths`: run-length encode the merged exceedances, zero the
runs shorter than `min_spell_length`, then take the per-period maximum
(`to_agg_units` only attaches unit metadata and is not modeled). -/
def sum_of_spell_lengths (cal : Calendar) (climate_vars : List ClimateVariable)
    (periodOf : Time → Time) (logical_link : LogicalLink) (min_spell_length : Nat) :
    Option (List (Time × Nat)) :=
  match _compute_exceedances cal climate_vars logical_link with
  | none => none
  | some merged =>
    let rleSeries := (merged.map Prod.fst).zip (rle (merged.map Prod.snd))
    let cropped_rle :=
      rleSeries.map (fun p => (p.1, if min_spell_length ≤ p.2 then p.2 else 0))
    some (aggGroups maxNat (resampleGroups periodOf cropped_rle))

/-- A boolean series with a single run of `r` consecutive `true` steps. -/
def singleRunPattern (a r b : Nat) : List Bool :=
  List.replicate a false ++ List.replicate r true ++ List.replicate b false

/-- A climate variable whose exceedances under its own threshold (at least 1)
form exactly `singleRunPattern a r b`. -/
def singleRunVar (a r b : Nat) (ts : List Time) : ClimateVariable :=
  { studied_data :=
      { data := ts.zip ((singleRunPattern a r b).map (fun x => if x then (1:ℚ) else 0)),
        units := .degC },
    threshold := some { operator := .ge, value := .scalar 1 },
    is_reference := false }

theorem singleRunPattern_length (a r b : Nat) :
    (singleRunPattern a r b).length = a + r + b := by
  simp [singleRunPattern]
  omega

theorem map_pair_zip (f : α → β) :
    ∀ (ts : List γ) (vs : List α),
      ((ts.zip vs).map (fun p => (p.1, f p.2))) = ts.zip (vs.map f) := by
  intro ts
  induction ts with
  | nil => intro vs; rfl
  | cons t ts2 ih =>
    intro vs
    cases vs with
    | nil => rfl
    | cons v vs2 => simp [ih vs2]

theorem eval_ge_one_indicator (x : Bool) :
    Operator.eval .ge (if x then (1:ℚ) else 0) 1 = x := by
  cases x <;> norm_num [Operator.eval]

theorem compute_exceedances_singleRun (cal : Calendar) (a r b : Nat) (ts : List Time)
    (hlen : ts.length = a + r + b) :
    _compute_exceedances cal [singleRunVar a r b ts] LogicalLinkRegistry.LOGICAL_AND
      = some (ts.zip (singleRunPattern a r b)) := by
  have hplen : (singleRunPattern a r b).length = a + r + b := singleRunPattern_length a r b
  have hexc : _compute_exceedance cal Operator.ge
      (ts.zip ((singleRunPattern a r b).map (fun x => if x then (1:ℚ) else 0)))
      (ThresholdValue.scalar 1)
      (must_run_bootstrap cal
        ((ts.zip ((singleRunPattern a r b).map (fun x => if x then (1:ℚ) else 0))).map
          Prod.fst)
        (some { operator := .ge, value := .scalar 1 }))
      = ts.zip (singleRunPattern a r b) := by
    rw [_compute_exceedance]
    simp only [resolveValue]
    rw [map_pair_zip (fun v => Operator.eval Operator.ge v 1), List.map_map]
    congr 1
    exact (List.map_congr_left (fun x _ => eval_ge_one_indicator x)).trans (List.map_id _)
  have hsnd : (ts.zip (singleRunPattern a r b)).map Prod.snd = singleRunPattern a r b :=
    List.map_snd_zip ts (singleRunPattern a r b) (by omega)
  have hfst : (ts.zip (singleRunPattern a r b)).map Prod.fst = ts :=
    List.map_fst_zip ts (singleRunPattern a r b) (by omega)
  have hOM : optionMap (fun cv =>
      cv.threshold.map (fun t =>
        _compute_exceedance cal t.operator cv.studied_data.data t.value
          (must_run_bootstrap cal (cv.studied_data.data.map Prod.fst) (some t))))
      [singleRunVar a r b ts]
      = some [ts.zip (singleRunPattern a r b)] := by
    have hstep : optionMap (fun cv =>
        cv.threshold.map (fun t =>
          _compute_exceedance cal t.operator cv.studied_data.data t.value
            (must_run_bootstrap cal (cv.studied_data.data.map Prod.fst) (some t))))
        [singleRunVar a r b ts]
        = some [_compute_exceedance cal Operator.ge
            (ts.zip ((singleRunPattern a r b).map (fun x => if x then (1:ℚ) else 0)))
            (ThresholdValue.scalar 1)
            (must_run_bootstrap cal
              ((ts.zip
                ((singleRunPattern a r b).map (fun x => if x then (1:ℚ) else 0))).map
                Prod.fst)
              (some { operator := .ge, value := .scalar 1 }))] := rfl
    rw [hstep, hexc]
  rw [_compute_exceedances, hOM]
  show some (((ts.zip (singleRunPattern a r b)).map Prod.fst).zip
      ((ts.zip (singleRunPattern a r b)).map Prod.snd))
    = some (ts.zip (singleRunPattern a r b))
  rw [hsnd, hfst]

theorem rleFrom_replicate_false (b : Nat) :
    ∀ prev, rleFrom prev (List.replicate b false) = List.replicate b 0 := by
  induction b with
  | zero => intro prev; rfl
  | succ n ih =>
    intro prev
    show (if false && !prev then _ else 0) :: rleFrom false (List.replicate n false)
      = 0 :: List.replicate n 0
    rw [ih false]
    simp

theorem leadTrue_replicate (r b : Nat) :
    leadTrue (List.replicate r true ++ List.replicate b false) = r := by
  induction r with
  | zero =>
    cases b with
    | zero => rfl
    | succ m => rfl
  | succ n ih =>
    show leadTrue (List.replicate n true ++ List.replicate b false) + 1 = n + 1
    rw [ih]

theorem rleFrom_true_replicate_true (b : Nat) :
    ∀ m, rleFrom true (List.replicate m true ++ List.replicate b false)
      = List.replicate (m + b) 0 := by
  intro m
  induction m with
  | zero =>
    rw [Nat.zero_add]
    exact rleFrom_replicate_false b true
  | succ n ih =>
    show (if true && !true then _ else 0)
        :: rleFrom true (List.replicate n true ++ List.replicate b false)
      = List.replicate (n + 1 + b) 0
    rw [ih]
    have : n + 1 + b = (n + b) + 1 := by omega
    rw [this, List.replicate_succ]
    simp

/-- The run-length encoding of a single-run pattern: zeros except the run
length at the start of the run. -/
theorem rle_singleRunPattern (r b : Nat) :
    ∀ a, rle (singleRunPattern a r b) =
      List.replicate a 0 ++
        (match r with
          | 0 => List.replicate b 0
          | m + 1 => (m + 1) :: List.replicate (m + b) 0) := by
  intro a
  induction a with
  | zero =>
    simp only [singleRunPattern, List.replicate_zero, List.nil_append]
    cases r with
    | zero =>
      show rleFrom false (List.replicate 0 true ++ List.replicate b false)
        = List.replicate b 0
      rw [List.replicate_zero, List.nil_append]
      exact rleFrom_replicate_false b false
    | succ m =>
      show (if true && !false then
          leadTrue (true :: (List.replicate m true ++ List.replicate b false)) else 0)
          :: rleFrom true (List.replicate m true ++ List.replicate b false)
        = (m + 1) :: List.replicate (m + b) 0
      rw [rleFrom_true_replicate_true b m]
      have : (true :: (List.replicate m true ++ List.replicate b false))
          = List.replicate (m + 1) true ++ List.replicate b false := by
        rw [List.replicate_succ, List.cons_append]
      rw [this, leadTrue_replicate]
      simp
  | succ n ih =>
    show rleFrom false (false :: (List.replicate n false ++ _ ++ _)) = _
    rw [show rleFrom false (false :: (List.replicate n false
        ++ List.replicate r true ++ List.replicate b false))
      = 0 :: rleFrom false (List.replicate n false
        ++ List.replicate r true ++ List.replicate b false) from rfl]
    rw [show rleFrom false (List.replicate n false
        ++ List.replicate r true ++ List.replicate b false)
      = rle (singleRunPattern n r b) from rfl]
    rw [ih, List.replicate_succ]
    simp

theorem foldr_max_replicate_zero : ∀ (n z : Nat), (List.replicate n 0).foldr max z = z := by
  intro n
  induction n with
  | zero => intro z; rfl
  | succ m ih =>
    intro z
    show max 0 ((List.replicate m 0).foldr max z) = z
    rw [ih z, Nat.zero_max]

theorem maxNat_replicate_zero_append (n : Nat) (l : List Nat) :
    maxNat (List.replicate n 0 ++ l) = maxNat l := by
  rw [maxNat, List.foldr_append, foldr_max_replicate_zero]
  rfl

theorem maxNat_cons_replicate_zero (v t : Nat) :
    maxNat (v :: List.replicate t 0) = v := by
  show max v ((List.replicate t 0).foldr max 0) = v
  rw [foldr_max_replicate_zero, Nat.max_zero]

theorem dedup_replicate_pos (c : Time) : ∀ n, 0 < n → (List.replicate n c).dedup = [c] := by
  intro n
  induction n with
  | zero => intro h; omega
  | succ m ih =>
    intro h
    cases m with
    | zero => simp
    | succ p =>
      rw [List.replicate_succ, List.dedup_cons_of_mem
        (List.mem_replicate.mpr ⟨Nat.succ_ne_zero p, rfl⟩)]
      exact ih (Nat.succ_pos p)

theorem resampleGroups_const (c : Time) (s : List (Time × α)) (hne : s ≠ []) :
    resampleGroups (fun _ => c) s = [(c, s)] := by
  have h1 : (s.map Prod.fst).map (fun _ => c) = List.replicate s.length c := by
    rw [List.map_map]
    have : ∀ (l : List (Time × α)), l.map ((fun _ => c) ∘ Prod.fst)
        = List.replicate l.length c := by
      intro l
      induction l with
      | nil => rfl
      | cons x xs ih => simp [ih, List.replicate_succ]
    exact this s
  rw [resampleGroups, resampleLabels, h1,
    dedup_replicate_pos c s.length (List.length_pos.mpr hne)]
  rw [List.map_singleton]
  have h2 : periodSlice (fun _ => c) s c = s := by
    rw [periodSlice]
    apply List.filter_eq_self.mpr
    intro p hp
    exact beq_self_eq_true c
  rw [h2]

/-- Evaluation of `sum_of_spell_lengths` on a single-variable single-run
series falling into one period: the maximum of the cropped run lengths. -/
theorem sum_of_spell_lengths_singleRun (cal : Calendar) (k a r b : Nat) (c : Time)
    (ts : List Time) (hlen : ts.length = a + r + b) (hne : ts ≠ []) :
    sum_of_spell_lengths cal [singleRunVar a r b ts] (fun _ => c)
        LogicalLinkRegistry.LOGICAL_AND k
      = some [(c, if k ≤ r then r else 0)] := by
  have hplen : (singleRunPattern a r b).length = a + r + b := singleRunPattern_length a r b
  rw [sum_of_spell_lengths, compute_exceedances_singleRun cal a r b ts hlen]
  have hsnd : (ts.zip (singleRunPattern a r b)).map Prod.snd = singleRunPattern a r b :=
    List.map_snd_zip ts (singleRunPattern a r b) (by omega)
  have hfst : (ts.zip (singleRunPattern a r b)).map Prod.fst = ts :=
    List.map_fst_zip ts (singleRunPattern a r b) (by omega)
  show some (aggGroups maxNat (resampleGroups (fun _ => c)
      ((((ts.zip (singleRunPattern a r b)).map Prod.fst).zip
          (rle ((ts.zip (singleRunPattern a r b)).map Prod.snd))).map
        (fun p => (p.1, if k ≤ p.2 then p.2 else 0)))))
    = some [(c, if k ≤ r then r else 0)]
  rw [hsnd, hfst, map_pair_zip (fun v => if k ≤ v then v else 0) ts]
  have hrlen : (rle (singleRunPattern a r b)).length = a + r + b := by
    have : ∀ prev (l : List Bool), (rleFrom prev l).length = l.length := by
      intro prev l
      induction l generalizing prev with
      | nil => rfl
      | cons x xs ih => simp [rleFrom, ih]
    rw [rle, this, hplen]
  have hzne : ts.zip ((rle (singleRunPattern a r b)).map
      (fun v => if k ≤ v then v else 0)) ≠ [] := by
    apply List.ne_nil_of_length_pos
    rw [List.length_zip, List.length_map, hrlen, hlen, min_self]
    have hpos : 0 < ts.length := List.length_pos.mpr hne
    omega
  rw [resampleGroups_const c _ hzne]
  have hsnd2 : (ts.zip ((rle (singleRunPattern a r b)).map
      (fun v => if k ≤ v then v else 0))).map Prod.snd
      = (rle (singleRunPattern a r b)).map (fun v => if k ≤ v then v else 0) := by
    apply List.map_snd_zip
    rw [List.length_map, hrlen, hlen]
  have hmax : maxNat ((rle (singleRunPattern a r b)).map
      (fun v => if k ≤ v then v else 0)) = if k ≤ r then r else 0 := by
    rw [rle_singleRunPattern r b a]
    cases r with
    | zero =>
      rw [ite_self]
      show maxNat ((List.replicate a 0 ++ List.replicate b 0).map
        (fun v => if k ≤ v then v else 0)) = 0
      rw [← List.replicate_add, List.map_replicate, ite_self]
      show (List.replicate (a + b) 0).foldr max 0 = 0
      exact foldr_max_replicate_zero (a + b) 0
    | succ m =>
      rw [List.map_append, List.map_replicate, List.map_cons, List.map_replicate,
        ite_self, maxNat_replicate_zero_append, maxNat_cons_replicate_zero]
  simp only [aggGroups, List.map_singleton]
  rw [hsnd2, hmax]

/-- C5: `sum_of_spell_lengths` with minimum spell length `k` crops the runs
shorter than `k` to zero before the per-period maximum: a single run of
exactly `k - 1` consecutive exceedances yields 0 for its period, and a single
run of exactly `k` yields `k`. -/
theorem sum_of_spell_lengths_boundary (cal : Calendar) (k a b : Nat) (c : Time)
    (ts1 ts2 : List Time) (hk : 1 ≤ k)
    (hlen1 : ts1.length = a + (k - 1) + b) (hne1 : ts1 ≠ [])
    (hlen2 : ts2.length = a + k + b) :
    sum_of_spell_lengths cal [singleRunVar a (k - 1) b ts1] (fun _ => c)
        LogicalLinkRegistry.LOGICAL_AND k = some [(c, 0)] ∧
      sum_of_spell_lengths cal [singleRunVar a k b ts2] (fun _ => c)
        LogicalLinkRegistry.LOGICAL_AND k = some [(c, k)] := by
  have hne2 : ts2 ≠ [] := by
    intro h
    rw [h] at hlen2
    simp at hlen2
    omega
  constructor
  · rw [sum_of_spell_lengths_singleRun cal k a (k - 1) b c ts1 hlen1 hne1]
    have : ¬ (k ≤ k - 1) := by omega
    simp [this]
  · rw [sum_of_spell_lengths_singleRun cal k a k b c ts2 hlen2 hne2]
    simp

/-- Witness for C5 at a concrete input: minimum spell length 2, a run of 1
gives 0, a run of 2 gives 2. -/
theorem sum_of_spell_lengths_boundary_witness :
    sum_of_spell_lengths trivialCalendar [singleRunVar 1 1 0 [0, 1]] (fun _ => 0)
        LogicalLinkRegistry.LOGICAL_AND 2 = some [(0, 0)] ∧
      sum_of_spell_lengths trivialCalendar [singleRunVar 1 2 0 [0, 1, 2]] (fun _ => 0)
        LogicalLinkRegistry.LOGICAL_AND 2 = some [(0, 2)] :=
  sum_of_spell_lengths_boundary trivialCalendar 2 1 0 0 [0, 1] [0, 1, 2]
    (by decide) (by decide) (by decide) (by decide)

/-- Modelled from the spec: the sampling-method name constants of
`icclim.models.constants` (file not under src/); only their identity
matters. -/
def RESAMPLE_METHOD : String := "resample"

/-- Modelled from the spec: group-by sampling method name. -/
def GROUP_BY_METHOD : String := "groupby"

/-- Modelled from the spec: group-by-reference-and-resample-study sampling
method name. -/
def GROUP_BY_REF_AND_RESAMPLE_STUDY_METHOD : String := "groupby_ref_and_resample_study"

/-- Identity tags of the `FrequencyRegistry` entries that the source compares
frequencies against (`icclim.models.frequency` is not under src/; modelled
from the spec). -/
inductive FreqTag
  | year
  | month
  | day
  | amjjas
  | ondjfm
  | djf
  | mam
  | jja
  | son
  | other
  deriving DecidableEq, Repr

/-- The group-by key of a frequency: the `RUN_INDEXER` marker or a date-label
selector (such as `time.month` or `time.dayofyear`). -/
inductive GroupByKey
  | runIndexer
  | key (selector : Time → Nat)

/-- Whether the group-by key is the `RUN_INDEXER` marker. -/
def GroupByKey.isRunIndexer : GroupByKey → Bool
  | .runIndexer => true
  | .key _ => false

/-- Modelled from the spec: a `Frequency` descriptor — registry identity tag,
the resampling bucket assignment of its `pandas_freq` anchor (external
capability of the array library), the optional time indexer and the group-by
key.  For the month and day frequencies the group-by selector is the matching
`time.dt` accessor. -/
structure Frequency where
  tag : FreqTag
  periodOf : Time → Time
  indexer : Option Unit
  group_by_key : GroupByKey

/-- Errors surfaced by the engine: the domain validation error
`InvalidIcclimArgumentError`, `NotImplementedError`, and the Python
`IndexError` and `KeyError` of out-of-range accesses. -/
inductive PyErr
  | invalidIcclimArgument (message : String)
  | notImplementedError (message : String)
  | indexError
  | keyError
  deriving DecidableEq, Repr

/-- `_get_couple_of_var`: requires the first two variables to be
threshold-free, converts the study variable into the reference's units and
returns both.  Fewer than two variables raises `IndexError`. -/
def _get_couple_of_var (climate_vars : List ClimateVariable) (indicator : String) :
    Except PyErr (DataArrayQ × DataArrayQ) :=
  match climate_vars with
  | v0 :: v1 :: _ =>
    if v0.threshold.isSome || v1.threshold.isSome then
      .error (.invalidIcclimArgument (indicator ++ " cannot be computed with thresholds."))
    else
      .ok (convert_units_to v0.studied_data v1.studied_data, v1.studied_data)
  | _ => .error .indexError

/-- xarray subtraction of two time-indexed arrays: aligned on the common time
coordinate (inner join). -/
def seriesSub (a b : List (Time × ℚ)) : List (Time × ℚ) :=
  a.filterMap (fun p => (b.lookup p.1).map (fun w => (p.1, p.2 - w)))

/-- Mean of a list of rationals (empty periods produce NaN in the library;
embedded as 0, unreachable because periods come from present entries). -/
def meanQ (l : List ℚ) : ℚ := l.sum / l.length

/-- Maximum of a rational list (NaN on empty, embedded as 0, unreachable). -/
def maxQ : List ℚ → ℚ
  | [] => 0
  | x :: xs => xs.foldl max x

/-- Minimum of a rational list (NaN on empty, embedded as 0, unreachable). -/
def minQ : List ℚ → ℚ
  | [] => 0
  | x :: xs => xs.foldl min x

/-- `series.resample(time=freq).mean()`. -/
def resampleMean (periodOf : Time → Time) (s : List (Time × ℚ)) : List (Time × ℚ) :=
  aggGroups meanQ (resampleGroups periodOf s)

/-- `DataArray.diff(dim="time")`: consecutive differences, labelled by the
later timestamp (xarray's default `label="upper"`). -/
def timeDiff (s : List (Time × ℚ)) : List (Time × ℚ) :=
  (s.zip s.tail).map (fun p => (p.2.1, p.2.2 - p.1.2))

/-- `mean_of_difference`: per-period mean of (study − reference); the `units`
attribute is copied from the (already converted) study array. -/
def mean_of_difference (climate_vars : List ClimateVariable)
    (resample_freq : Frequency) : Except PyErr DataArrayQ := do
  let couple ← _get_couple_of_var climate_vars "mean_of_difference"
  let study := couple.1
  let ref := couple.2
  .ok { data := resampleMean resample_freq.periodOf (seriesSub study.data ref.data),
        units := study.units }

/-- `difference_of_extremes`: per-period (max of study − min of reference). -/
def difference_of_extremes (climate_vars : List ClimateVariable)
    (resample_freq : Frequency) : Except PyErr DataArrayQ := do
  let couple ← _get_couple_of_var climate_vars "difference_of_extremes"
  let study := couple.1
  let ref := couple.2
  let max_study := aggGroups maxQ (resampleGroups resample_freq.periodOf study.data)
  let min_ref := aggGroups minQ (resampleGroups resample_freq.periodOf ref.data)
  .ok { data := seriesSub max_study min_ref, units := study.units }

/-- `mean_of_absolute_one_time_step_difference`: per-period mean of
`abs(diff(study − reference))`. -/
def mean_of_absolute_one_time_step_difference (climate_vars : List ClimateVariable)
    (resample_freq : Frequency) : Except PyErr DataArrayQ := do
  let couple ← _get_couple_of_var climate_vars
    "mean_of_absolute_one_time_step_difference"
  let study := couple.1
  let ref := couple.2
  let one_time_step_diff := timeDiff (seriesSub study.data ref.data)
  let absDiff := one_time_step_diff.map (fun p => (p.1, |p.2|))
  .ok { data := resampleMean resample_freq.periodOf absDiff, units := study.units }

/-- Result of `difference_of_means`: a scalar (mean over all time), a series
keyed by a group label, or a time-indexed series. -/
inductive DiffMeansOut
  | scalar (value : ℚ) (units : PhysUnit)
  | byLabel (rows : List (Nat × ℚ)) (units : PhysUnit)
  | byTime (rows : List (Time × ℚ)) (units : PhysUnit)
  deriving Repr

/-- `series.groupby(key).mean()`: mean per group label. -/
def groupbyMean (selector : Time → Nat) (s : List (Time × ℚ)) : List (Nat × ℚ) :=
  ((s.map (fun p => selector p.1)).dedup).map
    (fun g => (g, meanQ ((s.filter (fun p => selector p.1 == g)).map Prod.snd)))

/-- Mean over the whole time dimension. -/
def meanAll (s : List (Time × ℚ)) : ℚ := meanQ (s.map Prod.snd)

/-- Label-aligned subtraction of two group-keyed series. -/
def labelSub (a b : List (Nat × ℚ)) : List (Nat × ℚ) :=
  a.filterMap (fun p => (b.lookup p.1).map (fun w => (p.1, p.2 - w)))

/-- Label-aligned `diff / mean_ref * 100` of two group-keyed series. -/
def labelDivScale (a b : List (Nat × ℚ)) : List (Nat × ℚ) :=
  a.filterMap (fun p => (b.lookup p.1).map (fun w => (p.1, p.2 / w * 100)))

/-- Time-aligned `diff / mean_ref * 100` of two time-keyed series. -/
def timeDivScale (a b : List (Time × ℚ)) : List (Time × ℚ) :=
  a.filterMap (fun p => (b.lookup p.1).map (fun w => (p.1, p.2 / w * 100)))

/-- Evaluate a list of fallible computations; the first failure propagates. -/
def exceptMap (f : α → Except ε β) : List α → Except ε (List β)
  | [] => .ok []
  | x :: xs =>
    match f x, exceptMap f xs with
    | .ok y, .ok ys => .ok (y :: ys)
    | .error e, _ => .error e
    | _, .error e => .error e

/-- `diff_of_means_of_resampled_x_by_groupedby_y`: the reference is grouped by
the frequency's group-by label, the study is resampled, and each study period
mean is compared with the reference mean of the matching label (month or day
of year of the period's first date; `.sel` on a missing label raises
`KeyError`).  Frequencies other than month and day raise
`NotImplementedError`. -/
def diff_of_means_of_resampled_x_by_groupedby_y (resample_freq : Frequency)
    (to_percent : Bool) (study ref : DataArrayQ) : Except PyErr DiffMeansOut := do
  let sel ← match resample_freq.group_by_key with
    | .key s => Except.ok s
    | .runIndexer => Except.error .keyError
  let mean_ref := groupbyMean sel ref.data
  match resample_freq.tag with
  | .month | .day =>
    let acc ← exceptMap (fun g =>
        match mean_ref.lookup (sel ((g.2.map Prod.fst).headD 0)) with
        | none => Except.error .keyError
        | some ref_group_mean =>
          let sample_mean := meanQ (g.2.map Prod.snd)
          let d := sample_mean - ref_group_mean
          Except.ok (g.1, if to_percent then d / ref_group_mean * 100 else d))
      (resampleGroups resample_freq.periodOf study.data)
    if to_percent then Except.ok (.byTime acc .percent)
    else Except.ok (.byTime acc study.units)
  | _ =>
    Except.error (.notImplementedError
      "groupby_ref_and_resample_study is only available for month and day frequencies.")

/-- `difference_of_means`: three sampling strategies — group-by, resample, or
group-by reference with resampled study; the percent variant divides by the
reference mean and scales by 100. -/
def difference_of_means (climate_vars : List ClimateVariable) (to_percent : Bool)
    (resample_freq : Frequency) (sampling_method : String) :
    Except PyErr DiffMeansOut := do
  let couple ← _get_couple_of_var climate_vars "difference_of_means"
  let study := couple.1
  let ref := couple.2
  if sampling_method = GROUP_BY_METHOD then
    match resample_freq.group_by_key with
    | .runIndexer =>
      let mean_study := meanAll study.data
      let mean_ref := meanAll ref.data
      let d := mean_study - mean_ref
      if to_percent then Except.ok (.scalar (d / mean_ref * 100) .percent)
      else Except.ok (.scalar d study.units)
    | .key sel =>
      let mean_study := groupbyMean sel study.data
      let mean_ref := groupbyMean sel ref.data
      if to_percent then
        Except.ok (.byLabel (labelDivScale (labelSub mean_study mean_ref) mean_ref) .percent)
      else Except.ok (.byLabel (labelSub mean_study mean_ref) study.units)
  else if sampling_method = RESAMPLE_METHOD then
    let mean_study := resampleMean resample_freq.periodOf study.data
    let mean_ref := resampleMean resample_freq.periodOf ref.data
    if to_percent then
      Except.ok (.byTime (timeDivScale (seriesSub mean_study mean_ref) mean_ref) .percent)
    else Except.ok (.byTime (seriesSub mean_study mean_ref) study.units)
  else if sampling_method = GROUP_BY_REF_AND_RESAMPLE_STUDY_METHOD then
    if resample_freq.group_by_key.isRunIndexer || resample_freq.tag == .year then
      let mean_study := resampleMean resample_freq.periodOf study.data
      let mean_ref := meanAll ref.data
      let rows := mean_study.map (fun p => (p.1,
        if to_percent then (p.2 - mean_ref) / mean_ref * 100 else p.2 - mean_ref))
      if to_percent then Except.ok (.byTime rows .percent)
      else Except.ok (.byTime rows study.units)
    else
      diff_of_means_of_resampled_x_by_groupedby_y resample_freq to_percent study ref
  else
    Except.error (.notImplementedError ("Unknown sampling_method: " ++ sampling_method))

/-- A concrete frequency used by witnesses: yearly anchor, single bucket. -/
def yearFreq : Frequency :=
  { tag := .year, periodOf := fun _ => 0, indexer := none, group_by_key := .runIndexer }

/-- C8: each two-variable difference reducer raises the domain validation
error (`InvalidIcclimArgumentError`) before computing anything when either of
its two input variables carries a threshold. -/
theorem difference_reducers_reject_thresholds (v0 v1 : ClimateVariable)
    (rest : List ClimateVariable) (resample_freq : Frequency) (to_percent : Bool)
    (sampling_method : String)
    (h : v0.threshold.isSome ∨ v1.threshold.isSome) :
    mean_of_difference (v0 :: v1 :: rest) resample_freq
        = .error (.invalidIcclimArgument
            "mean_of_difference cannot be computed with thresholds.") ∧
      difference_of_extremes (v0 :: v1 :: rest) resample_freq
        = .error (.invalidIcclimArgument
            "difference_of_extremes cannot be computed with thresholds.") ∧
      mean_of_absolute_one_time_step_difference (v0 :: v1 :: rest) resample_freq
        = .error (.invalidIcclimArgument
            "mean_of_absolute_one_time_step_difference cannot be computed with thresholds.") ∧
      difference_of_means (v0 :: v1 :: rest) to_percent resample_freq sampling_method
        = .error (.invalidIcclimArgument
            "difference_of_means cannot be computed with thresholds.") := by
  have hcond : (v0.threshold.isSome || v1.threshold.isSome) = true := by
    rcases h with h | h <;> simp [h]
  refine ⟨?_, ?_, ?_, ?_⟩ <;>
    simp [mean_of_difference, difference_of_extremes,
      mean_of_absolute_one_time_step_difference, difference_of_means,
      _get_couple_of_var, hcond, Bind.bind, Except.bind]

/-- Witness for C8 at a concrete input (first variable thresholded). -/
theorem difference_reducers_reject_thresholds_witness :
    (clipWitnessVar.threshold.isSome ∨
        (⟨⟨[(0, 0)], .kelvin⟩, none, false⟩ : ClimateVariable).threshold.isSome) ∧
      mean_of_difference [clipWitnessVar, ⟨⟨[(0, 0)], .kelvin⟩, none, false⟩] yearFreq
        = .error (.invalidIcclimArgument
            "mean_of_difference cannot be computed with thresholds.") ∧
      difference_of_extremes [clipWitnessVar, ⟨⟨[(0, 0)], .kelvin⟩, none, false⟩] yearFreq
        = .error (.invalidIcclimArgument
            "difference_of_extremes cannot be computed with thresholds.") ∧
      mean_of_absolute_one_time_step_difference
          [clipWitnessVar, ⟨⟨[(0, 0)], .kelvin⟩, none, false⟩] yearFreq
        = .error (.invalidIcclimArgument
            "mean_of_absolute_one_time_step_difference cannot be computed with thresholds.") ∧
      difference_of_means [clipWitnessVar, ⟨⟨[(0, 0)], .kelvin⟩, none, false⟩]
          false yearFreq RESAMPLE_METHOD
        = .error (.invalidIcclimArgument
            "difference_of_means cannot be computed with thresholds.") := by
  refine ⟨Or.inl rfl, ?_⟩
  have h := difference_reducers_reject_thresholds clipWitnessVar
    ⟨⟨[(0, 0)], .kelvin⟩, none, false⟩ [] yearFreq false RESAMPLE_METHOD (Or.inl rfl)
  exact ⟨h.1, h.2.1, h.2.2.1, h.2.2.2⟩

theorem convertValue_self (u : PhysUnit) (v : ℚ) : convertValue u u v = v := by
  cases u <;> rfl

theorem convert_units_to_of_units_eq (a b : DataArrayQ) (h : a.units = b.units) :
    convert_units_to a b = { data := a.data, units := b.units } := by
  rw [convert_units_to]
  congr 1
  rw [h]
  exact (List.map_congr_left (fun p _ => by rw [convertValue_self])).trans
    (by rw [show (fun (p : Time × ℚ) => (p.1, p.2)) = id from rfl, List.map_id])

/-- Counterexample for C4: with var1 in Celsius and var2 in Kelvin,
`mean_of_difference` returns the Kelvin unit (the reference's), not var1's
Celsius unit, and the value is the mean of the converted difference
(273.15), not the mean of the raw difference (0). -/
theorem mean_of_difference_unit_counterexample :
    mean_of_difference
        [⟨⟨[(0, 0)], .degC⟩, none, false⟩, ⟨⟨[(0, 0)], .kelvin⟩, none, false⟩] yearFreq
      = .ok { data := [(0, 27315 / 100)], units := .kelvin } ∧
      PhysUnit.kelvin ≠ PhysUnit.degC ∧ (27315 / 100 : ℚ) ≠ 0 := by
  refine ⟨?_, by decide, by norm_num⟩
  simp [mean_of_difference, _get_couple_of_var, convert_units_to, convertValue,
    seriesSub, resampleMean, aggGroups, resampleGroups, resampleLabels, periodSlice,
    meanQ, yearFreq, List.lookup, Bind.bind, Except.bind]

/-- C4 (amended): for threshold-free inputs, `mean_of_difference` returns the
per-period mean of (var1 − var2) computed after converting var1 into var2's
unit, and the result's unit attribute is var2's (the reference's) unit; when
both variables already share a unit this is exactly the per-period mean of
(var1 − var2) carrying that common unit. -/
theorem mean_of_difference_spec (v0 v1 : ClimateVariable)
    (rest : List ClimateVariable) (resample_freq : Frequency) (out : DataArrayQ)
    (h0 : v0.threshold = none) (h1 : v1.threshold = none)
    (hout : mean_of_difference (v0 :: v1 :: rest) resample_freq = .ok out) :
    out.units = v1.studied_data.units ∧
      out.data = resampleMean resample_freq.periodOf
        (seriesSub (convert_units_to v0.studied_data v1.studied_data).data
          v1.studied_data.data) ∧
      (v0.studied_data.units = v1.studied_data.units →
        out.data = resampleMean resample_freq.periodOf
          (seriesSub v0.studied_data.data v1.studied_data.data)) := by
  rw [mean_of_difference, _get_couple_of_var] at hout
  rw [h0, h1] at hout
  simp only [Option.isSome_none, Bool.or_self, Bool.false_eq_true, if_false,
    Bind.bind, Except.bind, Except.ok.injEq] at hout
  constructor
  · rw [← hout]
    rfl
  constructor
  · rw [← hout]
  · intro hu
    rw [← hout, convert_units_to_of_units_eq v0.studied_data v1.studied_data hu]

/-- Witness for C4's amended theorem at a concrete input with equal units. -/
theorem mean_of_difference_spec_witness :
    mean_of_difference
        [⟨⟨[(0, 5)], .degC⟩, none, false⟩, ⟨⟨[(0, 1)], .degC⟩, none, false⟩] yearFreq
      = .ok { data := [(0, 4)], units := .degC } ∧
      (({ data := [(0, 4)], units := .degC } : DataArrayQ).units
          = (⟨⟨[(0, 1)], .degC⟩, none, false⟩ : ClimateVariable).studied_data.units ∧
        ({ data := [(0, 4)], units := .degC } : DataArrayQ).data
          = resampleMean yearFreq.periodOf
              (seriesSub (convert_units_to
                  (⟨⟨[(0, 5)], .degC⟩, none, false⟩ : ClimateVariable).studied_data
                  (⟨⟨[(0, 1)], .degC⟩, none, false⟩ : ClimateVariable).studied_data).data
                (⟨⟨[(0, 1)], .degC⟩, none, false⟩ : ClimateVariable).studied_data.data) ∧
        ((⟨⟨[(0, 5)], .degC⟩, none, false⟩ : ClimateVariable).studied_data.units
            = (⟨⟨[(0, 1)], .degC⟩, none, false⟩ : ClimateVariable).studied_data.units →
          ({ data := [(0, 4)], units := .degC } : DataArrayQ).data
            = resampleMean yearFreq.periodOf
                (seriesSub
                  (⟨⟨[(0, 5)], .degC⟩, none, false⟩ : ClimateVariable).studied_data.data
                  (⟨⟨[(0, 1)], .degC⟩, none, false⟩ : ClimateVariable).studied_data.data))) := by
  have heval : mean_of_difference
      [⟨⟨[(0, 5)], .degC⟩, none, false⟩, ⟨⟨[(0, 1)], .degC⟩, none, false⟩] yearFreq
      = .ok { data := [(0, 4)], units := .degC } := by
    simp [mean_of_difference, _get_couple_of_var, convert_units_to, convertValue,
      seriesSub, resampleMean, aggGroups, resampleGroups, resampleLabels, periodSlice,
      meanQ, yearFreq, Bind.bind, Except.bind]
    norm_num
  exact ⟨heval,
    mean_of_difference_spec ⟨⟨[(0, 5)], .degC⟩, none, false⟩
      ⟨⟨[(0, 1)], .degC⟩, none, false⟩ [] yearFreq
      { data := [(0, 4)], units := .degC } rfl rfl heval⟩

/-- The per-period reducer passed to `_run_simple_reducer` as a first-class
value (and identity-compared in `_reduce_with_date_event`).  The per-period
standard deviation is a reduction capability of the array library and is
carried as a function. -/
inductive ResampleReducer
  | rmax
  | rmin
  | rmean
  | rsum
  | rstd (op : List ℚ → ℚ)

/-- Apply a reducer to the values of one period. -/
def ResampleReducer.apply : ResampleReducer → List ℚ → ℚ
  | .rmax => maxQ
  | .rmin => minQ
  | .rmean => meanQ
  | .rsum => sumQ
  | .rstd op => op

/-- An output row, optionally annotated with event-date coordinates. -/
structure OutRow where
  time : Time
  value : ℚ
  event_date : Option Time := none
  event_date_start : Option Time := none
  event_date_end : Option Time := none
  deriving DecidableEq, Repr

/-- First index of the maximum value (`DataArray.argmax`, ties resolved to the
first occurrence). -/
def argmaxIdx : List ℚ → Nat
  | [] => 0
  | [_] => 0
  | x :: y :: xs => if x < maxQ (y :: xs) then argmaxIdx (y :: xs) + 1 else 0

/-- First index of the minimum value (`DataArray.argmin`). -/
def argminIdx : List ℚ → Nat
  | [] => 0
  | [_] => 0
  | x :: y :: xs => if minQ (y :: xs) < x then argminIdx (y :: xs) + 1 else 0

/-- `_reduce_with_date_event`: for the max/min reducers, locate the extreme
step of each period with argmax/argmin, and return the period's
`sample.sum(dim="time")` annotated with the extreme step's timestamp (a single
event date, or a start/end span of `window` steps when a rolling window is
given).  Any other reducer raises `NotImplementedError`. -/
def _reduce_with_date_event (resampled : List (Time × List (Time × ℚ)))
    (reducer : ResampleReducer) (source_delta : Nat) (window : Option Nat) :
    Except PyErr (List OutRow) := do
  let group_reducer ← match reducer with
    | .rmax => Except.ok argmaxIdx
    | .rmin => Except.ok argminIdx
    | _ => Except.error (.notImplementedError
        "Cannot compute date_event due to unknown reducer.")
  Except.ok (resampled.map (fun g =>
    let idx := group_reducer (g.2.map Prod.snd)
    let reduced_time := (g.2.map Prod.fst).getD idx 0
    match window with
    | some w =>
      { time := g.1, value := sumQ (g.2.map Prod.snd),
        event_date_start := some reduced_time,
        event_date_end := some (reduced_time + w * source_delta) }
    | none =>
      { time := g.1, value := sumQ (g.2.map Prod.snd),
        event_date := some reduced_time }))

/-- `_run_simple_reducer`: filter the study data by its own threshold (masked
steps become NaN through `where` and are skipped by the reduction, embedded by
excluding them), then reduce per period, optionally with event dates
(`source_delta`/`window` are not passed by this caller). -/
def _run_simple_reducer (cal : Calendar) (climate_vars : List ClimateVariable)
    (periodOf : Time → Time) (reducer_op : ResampleReducer) (date_event : Bool) :
    Except PyErr (List OutRow) :=
  match _get_single_var climate_vars with
  | none => .error .indexError
  | some (thresh_op, study, threshold) =>
    let filtered_study :=
      match thresh_op, threshold with
      | some op, some t =>
        let exceedance := _compute_exceedance cal op study.data t.value
          (must_run_bootstrap cal (study.data.map Prod.fst) (some t))
        (study.data.zip (exceedance.map Prod.snd)).filterMap
          (fun p => if p.2 then some p.1 else none)
      | _, _ => study.data
    if date_event then
      _reduce_with_date_event (resampleGroups periodOf filtered_study) reducer_op 0 none
    else
      .ok ((aggGroups reducer_op.apply (resampleGroups periodOf filtered_study)).map
        (fun p => { time := p.1, value := p.2 }))

/-- `maximum`: per-period maximum of the (optionally filtered) study data. -/
def maximum (cal : Calendar) (climate_vars : List ClimateVariable)
    (periodOf : Time → Time) (date_event : Bool) : Except PyErr (List OutRow) :=
  _run_simple_reducer cal climate_vars periodOf .rmax date_event

/-- `minimum`: per-period minimum. -/
def minimum (cal : Calendar) (climate_vars : List ClimateVariable)
    (periodOf : Time → Time) (date_event : Bool) : Except PyErr (List OutRow) :=
  _run_simple_reducer cal climate_vars periodOf .rmin date_event

/-- `average`: per-period mean (never dated). -/
def average (cal : Calendar) (climate_vars : List ClimateVariable)
    (periodOf : Time → Time) : Except PyErr (List OutRow) :=
  _run_simple_reducer cal climate_vars periodOf .rmean false

/-- `sum`: per-period sum (never dated). -/
def sum (cal : Calendar) (climate_vars : List ClimateVariable)
    (periodOf : Time → Time) : Except PyErr (List OutRow) :=
  _run_simple_reducer cal climate_vars periodOf .rsum false

/-- `standard_deviation`: per-period standard deviation (never dated); the
reduction itself is the array library's. -/
def standard_deviation (stdOp : List ℚ → ℚ) (cal : Calendar)
    (climate_vars : List ClimateVariable) (periodOf : Time → Time) :
    Except PyErr (List OutRow) :=
  _run_simple_reducer cal climate_vars periodOf (.rstd stdOp) false

/-- A `GenericIndicator` registration: name, optional input-arity validator,
allowed sampling methods (the reduction function is bound by name). -/
structure GenericIndicatorDef where
  name : String
  check_vars : Option (List ClimateVariable → String → Except PyErr Unit)
  sampling_methods : List String

/-- `check_single_var`: rejects more than one input variable. -/
def check_single_var (climate_vars : List ClimateVariable)
    (indicator_name : String) : Except PyErr Unit :=
  if climate_vars.length > 1 then
    .error (.invalidIcclimArgument
      (indicator_name ++ " can only be computed on a single variable."))
  else .ok ()

/-- `check_couple_of_vars`: requires exactly two input variables. -/
def check_couple_of_vars (climate_vars : List ClimateVariable)
    (indicator_name : String) : Except PyErr Unit :=
  if climate_vars.length ≠ 2 then
    .error (.invalidIcclimArgument
      (indicator_name ++ " can only be computed on two variables sharing the same unit."))
  else .ok ()

namespace GenericIndicatorRegistry

/-- Registry entry `Maximum`: registered without a `check_vars` validator. -/
def Maximum : GenericIndicatorDef := ⟨"maximum", none, [RESAMPLE_METHOD]⟩

/-- Registry entry `Minimum`: registered without a `check_vars` validator. -/
def Minimum : GenericIndicatorDef := ⟨"minimum", none, [RESAMPLE_METHOD]⟩

/-- Registry entry `Average`: registered without a `check_vars` validator. -/
def Average : GenericIndicatorDef := ⟨"average", none, [RESAMPLE_METHOD]⟩

/-- Registry entry `Sum`: registered without a `check_vars` validator. -/
def Sum : GenericIndicatorDef := ⟨"sum", none, [RESAMPLE_METHOD]⟩

/-- Registry entry `StandardDeviation`: registered without a `check_vars`
validator. -/
def StandardDeviation : GenericIndicatorDef :=
  ⟨"standard_deviation", none, [RESAMPLE_METHOD]⟩

/-- Registry entry `Excess`: registered with the single-variable validator. -/
def Excess : GenericIndicatorDef := ⟨"excess", some check_single_var, [RESAMPLE_METHOD]⟩

/-- Registry entry `MeanOfDifference`: registered with the couple validator. -/
def MeanOfDifference : GenericIndicatorDef :=
  ⟨"mean_of_difference", some check_couple_of_vars, [RESAMPLE_METHOD]⟩

end GenericIndicatorRegistry

/-- The `check_vars` validation step of `GenericIndicator.preprocess`: an
absent validator means the arity validation passes. -/
def run_check_vars (ind : GenericIndicatorDef)
    (climate_vars : List ClimateVariable) : Except PyErr Unit :=
  match ind.check_vars with
  | none => .ok ()
  | some f => f climate_vars ind.name

/-- C10: the indicators bound to maximum, minimum, average, sum and
standard_deviation register no input-arity validator; invoked with two or
more climate variables their validation passes, and the reduction equals the
reduction of the first variable alone — the remaining variables are silently
ignored. -/
theorem simple_reducers_ignore_extra_vars (cal : Calendar) (periodOf : Time → Time)
    (stdOp : List ℚ → ℚ) (date_event : Bool) (v1 v2 : ClimateVariable)
    (rest : List ClimateVariable) :
    (GenericIndicatorRegistry.Maximum.check_vars = none ∧
      GenericIndicatorRegistry.Minimum.check_vars = none ∧
      GenericIndicatorRegistry.Average.check_vars = none ∧
      GenericIndicatorRegistry.Sum.check_vars = none ∧
      GenericIndicatorRegistry.StandardDeviation.check_vars = none) ∧
    (run_check_vars GenericIndicatorRegistry.Maximum (v1 :: v2 :: rest) = .ok () ∧
      run_check_vars GenericIndicatorRegistry.Minimum (v1 :: v2 :: rest) = .ok () ∧
      run_check_vars GenericIndicatorRegistry.Average (v1 :: v2 :: rest) = .ok () ∧
      run_check_vars GenericIndicatorRegistry.Sum (v1 :: v2 :: rest) = .ok () ∧
      run_check_vars GenericIndicatorRegistry.StandardDeviation (v1 :: v2 :: rest)
        = .ok ()) ∧
    (maximum cal (v1 :: v2 :: rest) periodOf date_event
        = maximum cal [v1] periodOf date_event ∧
      minimum cal (v1 :: v2 :: rest) periodOf date_event
        = minimum cal [v1] periodOf date_event ∧
      average cal (v1 :: v2 :: rest) periodOf = average cal [v1] periodOf ∧
      sum cal (v1 :: v2 :: rest) periodOf = sum cal [v1] periodOf ∧
      standard_deviation stdOp cal (v1 :: v2 :: rest) periodOf
        = standard_deviation stdOp cal [v1] periodOf) :=
  ⟨⟨rfl, rfl, rfl, rfl, rfl⟩, ⟨rfl, rfl, rfl, rfl, rfl⟩, ⟨rfl, rfl, rfl, rfl, rfl⟩⟩

/-- `_to_percent`: divide each period value by the period's day count — the
month branch uses days-in-month and additionally scales by 100; year, ONDJFM
and DJF use leap-aware day counts; AMJJAS uses 183, MAM and JJA use 92, SON
uses 91; any other frequency warns and returns the data unchanged. -/
def _to_percent (da : List OutRow) (sampling_freq : Frequency) (cal : Calendar) :
    List OutRow :=
  match sampling_freq.tag with
  | .month => da.map (fun p => { p with value := p.value / cal.daysinmonth p.time * 100 })
  | .year => da.map (fun p =>
      { p with value := p.value / (if cal.isLeap p.time then 366 else 365) })
  | .amjjas => da.map (fun p => { p with value := p.value / 183 })
  | .ondjfm => da.map (fun p =>
      { p with value := p.value / (if cal.isLeap p.time then 183 else 182) })
  | .djf => da.map (fun p =>
      { p with value := p.value / (if cal.isLeap p.time then 91 else 90) })
  | .mam => da.map (fun p => { p with value := p.value / 92 })
  | .jja => da.map (fun p => { p with value := p.value / 92 })
  | .son => da.map (fun p => { p with value := p.value / 91 })
  | _ => da

/-- `_count_occurrences_with_date`: per period, the count of exceeding steps
annotated with the first and last `true` timestamps (argmax of the boolean
series finds the first `true`, argmax of the time-reversed series the
last; all-false periods fall back to index 0). -/
def _count_occurrences_with_date (resampled : List (Time × List (Time × Bool))) :
    List OutRow :=
  resampled.map (fun g =>
    let bools := g.2.map Prod.snd
    let times := g.2.map Prod.fst
    let firstIdx := match bools.findIdx? (fun b => b) with
      | some i => i
      | none => 0
    let lastRevIdx := match bools.reverse.findIdx? (fun b => b) with
      | some i => i
      | none => 0
    { time := g.1,
      value := sumQ (bools.map (fun b => if b then (1:ℚ) else 0)),
      event_date_start := some (times.getD firstIdx 0),
      event_date_end := some (times.reverse.getD lastRevIdx 0) })

/-- `count_occurrences`: per-period count of `true` exceedance steps (dated
variant when requested); when the output unit is `%` the result is passed
through `_to_percent` and the units attribute is forced to `%`
(`to_agg_units` otherwise only attaches count metadata). -/
def count_occurrences (cal : Calendar) (climate_vars : List ClimateVariable)
    (resample_freq : Frequency) (logical_link : LogicalLink) (date_event : Bool)
    (to_percent : Bool) : Option (List OutRow) :=
  match _compute_exceedances cal climate_vars logical_link with
  | none => none
  | some merged =>
    let result :=
      if date_event then
        _count_occurrences_with_date (resampleGroups resample_freq.periodOf merged)
      else
        (aggGroups (fun vs => sumQ (vs.map (fun b => if b then (1:ℚ) else 0)))
          (resampleGroups resample_freq.periodOf merged)).map
          (fun p => { time := p.1, value := p.2 })
    if to_percent then some (_to_percent result resample_freq cal) else some result

theorem singleRunPattern_full (r : Nat) :
    singleRunPattern 0 r 0 = List.replicate r true := by
  simp [singleRunPattern]

theorem sumQ_indicator_replicate_true (r : Nat) :
    sumQ ((List.replicate r true).map (fun b => if b then (1:ℚ) else 0)) = r := by
  rw [List.map_replicate]
  simp [sumQ, List.sum_replicate]

/-- Evaluation of `count_occurrences` (undated) on an all-exceeding series in
a single period: the raw count is the series length, then `_to_percent`
applies when requested. -/
theorem count_occurrences_singleRun (cal : Calendar) (freq : Frequency) (c : Time)
    (hpc : freq.periodOf = fun _ => c) (r : Nat) (ts : List Time)
    (hlen : ts.length = r) (hne : ts ≠ []) (to_pc : Bool) :
    count_occurrences cal [singleRunVar 0 r 0 ts] freq
        LogicalLinkRegistry.LOGICAL_AND false to_pc
      = (if to_pc then
          some (_to_percent [{ time := c, value := (r:ℚ) }] freq cal)
        else some [{ time := c, value := (r:ℚ) }]) := by
  have hlen2 : ts.length = 0 + r + 0 := by omega
  have hE := compute_exceedances_singleRun cal 0 r 0 ts hlen2
  rw [count_occurrences, hE, hpc]
  have hplen : (singleRunPattern 0 r 0).length = 0 + r + 0 := singleRunPattern_length 0 r 0
  have hzne : ts.zip (singleRunPattern 0 r 0) ≠ [] := by
    apply List.ne_nil_of_length_pos
    rw [List.length_zip, hplen, hlen2, min_self]
    have := List.length_pos.mpr hne
    omega
  have hsnd : (ts.zip (singleRunPattern 0 r 0)).map Prod.snd = singleRunPattern 0 r 0 :=
    List.map_snd_zip ts (singleRunPattern 0 r 0) (by omega)
  have hR : (aggGroups (fun vs => sumQ (vs.map (fun b => if b then (1:ℚ) else 0)))
      (resampleGroups (fun _ => c) (ts.zip (singleRunPattern 0 r 0)))).map
      (fun p => ({ time := p.1, value := p.2 } : OutRow))
      = [{ time := c, value := (r:ℚ) }] := by
    rw [resampleGroups_const c _ hzne]
    simp only [aggGroups, List.map_singleton]
    rw [hsnd, singleRunPattern_full, sumQ_indicator_replicate_true]
  show (if to_pc = true then
      some (_to_percent
        ((aggGroups (fun vs => sumQ (vs.map (fun b => if b then (1:ℚ) else 0)))
          (resampleGroups (fun _ => c) (ts.zip (singleRunPattern 0 r 0)))).map
          (fun p => ({ time := p.1, value := p.2 } : OutRow))) freq cal)
    else some ((aggGroups (fun vs => sumQ (vs.map (fun b => if b then (1:ℚ) else 0)))
        (resampleGroups (fun _ => c) (ts.zip (singleRunPattern 0 r 0)))).map
        (fun p => ({ time := p.1, value := p.2 } : OutRow))))
    = (if to_pc then some (_to_percent [{ time := c, value := (r:ℚ) }] freq cal)
       else some [{ time := c, value := (r:ℚ) }])
  rw [hR]

/-- Counterexample for C2: a SON season period (91 days) with all 91 days
exceeding returns the fraction 1, not the percentage 100 — the SON branch of
`_to_percent` divides by 91 without the `* 100` scaling that only the month
branch applies. -/
theorem count_occurrences_percent_counterexample :
    count_occurrences trivialCalendar [singleRunVar 0 91 0 (List.range 91)]
        { tag := .son, periodOf := fun _ => 0, indexer := none,
          group_by_key := .runIndexer }
        LogicalLinkRegistry.LOGICAL_AND false true
      = some [{ time := 0, value := 1 }] ∧ (1:ℚ) ≠ 100 := by
  constructor
  · rw [count_occurrences_singleRun trivialCalendar _ 0 rfl 91 (List.range 91)
      (by simp) (by simp) true]
    rw [if_pos rfl]
    show some (_to_percent [{ time := 0, value := (91:ℚ) }] _ trivialCalendar) = _
    simp only [_to_percent, List.map_singleton]
    norm_num
  · norm_num

/-- C2 (amended): with `%` output, `count_occurrences` divides the per-period
count by the period-specific day count; only the month branch also scales by
100, so a 31-day month with all 31 days exceeding returns 100, while the year
branch (leap-aware 365/366) and the named seasons (here SON, 91 days) return
the unscaled fraction of the period. -/
theorem count_occurrences_percent_spec (cal : Calendar) (freq : Frequency) (c : Time)
    (hpc : freq.periodOf = fun _ => c) (r : Nat) (ts : List Time)
    (hlen : ts.length = r) (hne : ts ≠ []) :
    (freq.tag = .month →
      count_occurrences cal [singleRunVar 0 r 0 ts] freq
          LogicalLinkRegistry.LOGICAL_AND false true
        = some [{ time := c, value := (r:ℚ) / cal.daysinmonth c * 100 }]) ∧
      (freq.tag = .month → cal.daysinmonth c = 31 → r = 31 →
        count_occurrences cal [singleRunVar 0 r 0 ts] freq
            LogicalLinkRegistry.LOGICAL_AND false true
          = some [{ time := c, value := 100 }]) ∧
      (freq.tag = .year →
        count_occurrences cal [singleRunVar 0 r 0 ts] freq
            LogicalLinkRegistry.LOGICAL_AND false true
          = some [{ time := c, value := (r:ℚ) / (if cal.isLeap c then 366 else 365) }]) ∧
      (freq.tag = .son →
        count_occurrences cal [singleRunVar 0 r 0 ts] freq
            LogicalLinkRegistry.LOGICAL_AND false true
          = some [{ time := c, value := (r:ℚ) / 91 }]) := by
  have hbase := count_occurrences_singleRun cal freq c hpc r ts hlen hne true
  rw [if_pos rfl] at hbase
  refine ⟨?_, ?_, ?_, ?_⟩
  · intro htag
    rw [hbase, _to_percent, htag]
    simp
  · intro htag hdim hr
    rw [hbase, _to_percent, htag]
    simp only [List.map_singleton]
    rw [hdim, hr]
    norm_num
  · intro htag
    rw [hbase, _to_percent, htag]
    simp
  · intro htag
    rw [hbase, _to_percent, htag]
    simp

/-- Witness for C2's amended theorem: a 31-day month, all days exceeding,
gives exactly 100. -/
theorem count_occurrences_percent_spec_witness :
    count_occurrences trivialCalendar [singleRunVar 0 31 0 (List.range 31)]
        { tag := .month, periodOf := fun _ => 0, indexer := none,
          group_by_key := .runIndexer }
        LogicalLinkRegistry.LOGICAL_AND false true
      = some [{ time := 0, value := 100 }] :=
  (count_occurrences_percent_spec trivialCalendar
      { tag := .month, periodOf := fun _ => 0, indexer := none,
        group_by_key := .runIndexer }
      0 rfl 31 (List.range 31) (by simp) (by simp)).2.1 rfl rfl rfl

/-- First index of the maximum of a natural list (ties to the first
occurrence; empty list to 0, mirroring `argmax` on an effectively empty
sample). -/
def argmaxNat : List Nat → Nat
  | [] => 0
  | [_] => 0
  | x :: y :: xs => if x < maxNat (y :: xs) then argmaxNat (y :: xs) + 1 else 0

/-- `_consecutive_occurrences_with_dates`: per period, the longest run length
(the value at the argmax of the rle series, whose NaN continuations are
already embedded as 0, making the `where(~isnull, 0)` step the identity),
annotated with the start at the argmax timestamp and the end at
start + run-length × the source sampling interval. -/
def _consecutive_occurrences_with_dates (resampled : List (Time × List (Time × Nat)))
    (source_freq_delta : Nat) : List OutRow :=
  resampled.map (fun g =>
    let vals := g.2.map Prod.snd
    let times := g.2.map Prod.fst
    let idx := argmaxNat vals
    let runLength := vals.getD idx 0
    let start_time := times.getD idx 0
    { time := g.1, value := (runLength : ℚ),
      event_date_start := some start_time,
      event_date_end := some (start_time + runLength * source_freq_delta) })

/-- `max_consecutive_occurrence`: per-period longest run of exceedances via
run-length encoding, optionally dated. -/
def max_consecutive_occurrence (cal : Calendar) (climate_vars : List ClimateVariable)
    (resample_freq : Frequency) (logical_link : LogicalLink) (date_event : Bool)
    (source_freq_delta : Nat) : Option (List OutRow) :=
  match _compute_exceedances cal climate_vars logical_link with
  | none => none
  | some merged =>
    let rleSeries := (merged.map Prod.fst).zip (rle (merged.map Prod.snd))
    let resampled := resampleGroups resample_freq.periodOf rleSeries
    if date_event then
      some (_consecutive_occurrences_with_dates resampled source_freq_delta)
    else
      some ((aggGroups maxNat resampled).map
        (fun p => { time := p.1, value := (p.2 : ℚ) }))

/-- C3 divergence, evaluated at the failing input: `maximum` with
`date_event` on the two-step period `[(10, 1), (11, 2)]` is annotated with
the extremum's timestamp 11, but its value is the period sum 3 produced by
`_reduce_with_date_event` (`result=sample.sum(dim="time")`), whereas the
undated `maximum` returns the extreme value 2 — contradicting the claim that
the dated variant returns the same per-period extreme values. -/
theorem reduce_with_date_event_returns_sum_not_extremum :
    maximum trivialCalendar [⟨⟨[(10, 1), (11, 2)], .degC⟩, none, false⟩]
        (fun _ => 0) false = .ok [{ time := 0, value := 2 }] ∧
      maximum trivialCalendar [⟨⟨[(10, 1), (11, 2)], .degC⟩, none, false⟩]
        (fun _ => 0) true = .ok [{ time := 0, value := 3, event_date := some 11 }] ∧
      (3 : ℚ) ≠ 2 := by
  refine ⟨?_, ?_, by norm_num⟩
  · simp only [maximum, _run_simple_reducer, _get_single_var, resampleGroups,
      resampleLabels, periodSlice, aggGroups, ResampleReducer.apply]
    norm_num [maxQ]
  · simp only [maximum, _run_simple_reducer, _get_single_var, resampleGroups,
      resampleLabels, periodSlice, _reduce_with_date_event, argmaxIdx, Bind.bind,
      Except.bind]
    norm_num [maxQ, sumQ, argmaxIdx]

/-- `reduce(np.logical_or, miss)`: the OR-combined per-period missing-flag
series over the shared resampling labels of the inputs. -/
def reducedMask (maskLabels : List Time) (f : Time → Bool) (fs : List (Time → Bool)) :
    List (Time × Bool) :=
  maskLabels.map (fun l => (l, fs.foldl (fun acc g => acc || g l) (f l)))

/-- `ResamplingIndicator._handle_missing_values`: OR-reduce the per-variable
missing flags (after preprocessing all inputs share their time coordinate, so
the per-variable flag series share the resampling labels `maskLabels`),
reindex the mask onto the result's labels when it is shorter — filling absent
periods with `true`, i.e. missing — and mask flagged periods to undefined
(`where(~mask)` turns them into NaN, embedded as `none`; a label absent from
the mask is conservatively treated as flagged).  An empty flag list raises
`TypeError` inside `reduce`; the claim assumes at least one non-reference
input. -/
def _handle_missing_values (maskLabels : List Time) (flagFns : List (Time → Bool))
    (out_data : List (Time × Option ℚ)) : List (Time × Option ℚ) :=
  match flagFns with
  | [] => out_data
  | f :: fs =>
    let mask := reducedMask maskLabels f fs
    let aligned :=
      if mask.length < out_data.length then
        out_data.map (fun p => (p.1, (mask.lookup p.1).getD true))
      else mask
    out_data.map (fun p => (p.1, if (aligned.lookup p.1).getD true then none else p.2))

/-- The missing-data masking step of `ResamplingIndicator.postprocess`:
applied only when the missing policy is not "skip" and a period indexer is in
use; the per-period flags are produced for each non-reference variable by the
configured missing method (`missExec`, an external xclim capability).  Output
unit conversion and metadata attachment are orthogonal to the masking; the
`result` here stands for the aggregated array after unit conversion. -/
def postprocess_missing (missing : String) (indexer : Option Unit)
    (climate_vars : List ClimateVariable) (maskLabels : List Time)
    (missExec : DataArrayQ → Time → Bool) (result : List (Time × Option ℚ)) :
    List (Time × Option ℚ) :=
  if missing ≠ "skip" ∧ indexer.isSome then
    _handle_missing_values maskLabels
      ((climate_vars.filter (fun cv => !cv.is_reference)).map
        (fun cv t => missExec cv.studied_data t))
      result
  else result

theorem lookup_keyed (G : Time → β) :
    ∀ (ks : List Time) (t : Time),
      (ks.map (fun k => (k, G k))).lookup t = if t ∈ ks then some (G t) else none := by
  intro ks
  induction ks with
  | nil => intro t; simp
  | cons k ks2 ih =>
    intro t
    by_cases hk : t = k
    · subst hk
      simp [List.lookup]
    · have hbeq : (t == k) = false := beq_false_of_ne hk
      simp only [List.map_cons, List.lookup, hbeq, ih t, List.mem_cons]
      by_cases hmem : t ∈ ks2 <;> simp [hmem, hk]

theorem foldl_or_any (p : α → Bool) :
    ∀ (l : List α) (b : Bool), l.foldl (fun acc g => acc || p g) b = (b || l.any p) := by
  intro l
  induction l with
  | nil => intro b; simp
  | cons x xs ih =>
    intro b
    show xs.foldl (fun acc g => acc || p g) (b || p x) = (b || (x :: xs).any p)
    rw [ih (b || p x), List.any_cons, Bool.or_assoc]

theorem reducedMask_lookup (L : List Time) (f : Time → Bool) (fs : List (Time → Bool))
    (t : Time) :
    (reducedMask L f fs).lookup t
      = if t ∈ L then some (f t || fs.any (fun g => g t)) else none := by
  rw [reducedMask,
    lookup_keyed (fun k => fs.foldl (fun acc g => acc || g k) (f k)) L t]
  by_cases hin : t ∈ L
  · rw [if_pos hin, if_pos hin, foldl_or_any (fun g => g t) fs (f t)]
  · rw [if_neg hin, if_neg hin]

theorem handle_missing_values_masks (maskLabels : List Time) (f : Time → Bool)
    (fs : List (Time → Bool)) (out_data : List (Time × Option ℚ)) (l : Time)
    (v : Option ℚ)
    (hmem : (l, v) ∈ _handle_missing_values maskLabels (f :: fs) out_data)
    (hflag : (f l || fs.any (fun g => g l)) = true ∨ l ∉ maskLabels) :
    v = none := by
  have hmaskval : ((reducedMask maskLabels f fs).lookup l).getD true = true := by
    rw [reducedMask_lookup]
    by_cases hin : l ∈ maskLabels
    · rcases hflag with h | h
      · rw [if_pos hin, h]
        rfl
      · exact absurd hin h
    · rw [if_neg hin]
      rfl
  have hunfold : _handle_missing_values maskLabels (f :: fs) out_data
      = out_data.map (fun p => (p.1,
          if ((if (reducedMask maskLabels f fs).length < out_data.length then
                out_data.map (fun q =>
                  (q.1, ((reducedMask maskLabels f fs).lookup q.1).getD true))
              else reducedMask maskLabels f fs).lookup p.1).getD true
          then none else p.2)) := rfl
  rw [hunfold] at hmem
  rcases List.mem_map.mp hmem with ⟨p, hp, heq⟩
  simp only [Prod.mk.injEq] at heq
  obtain ⟨h1, h2⟩ := heq
  have hcond : ((if (reducedMask maskLabels f fs).length < out_data.length then
      out_data.map (fun q => (q.1, ((reducedMask maskLabels f fs).lookup q.1).getD true))
    else reducedMask maskLabels f fs).lookup p.1).getD true = true := by
    rw [h1]
    by_cases hbr : (reducedMask maskLabels f fs).length < out_data.length
    · rw [if_pos hbr]
      have hkeyed : out_data.map (fun q =>
          (q.1, ((reducedMask maskLabels f fs).lookup q.1).getD true))
          = (out_data.map Prod.fst).map (fun k =>
            (k, ((reducedMask maskLabels f fs).lookup k).getD true)) := by
        rw [List.map_map]
        rfl
      rw [hkeyed,
        lookup_keyed (fun k => ((reducedMask maskLabels f fs).lookup k).getD true)]
      by_cases hout : l ∈ out_data.map Prod.fst
      · rw [if_pos hout]
        exact hmaskval
      · rw [if_neg hout]
        rfl
    · rw [if_neg hbr]
      exact hmaskval
  rw [hcond] at h2
  rw [if_pos rfl] at h2
  exact h2.symm

/-- C6: in postprocessing with an active (non-skip) policy and a period
indexer, every period flagged missing by the policy — the OR across the
non-reference inputs — is undefined in the final result regardless of its
unmasked aggregated value, and any result period absent from the flag series
is treated as missing (also undefined). -/
theorem postprocess_missing_masks (missing : String) (indexer : Option Unit)
    (climate_vars : List ClimateVariable) (maskLabels : List Time)
    (missExec : DataArrayQ → Time → Bool) (result : List (Time × Option ℚ))
    (l : Time) (v : Option ℚ)
    (hskip : missing ≠ "skip") (hidx : indexer.isSome = true)
    (hvars : climate_vars.filter (fun cv => !cv.is_reference) ≠ [])
    (hmem : (l, v) ∈ postprocess_missing missing indexer climate_vars maskLabels
      missExec result)
    (hflag : (climate_vars.filter (fun cv => !cv.is_reference)).any
        (fun cv => missExec cv.studied_data l) = true
      ∨ l ∉ maskLabels) :
    v = none := by
  rw [postprocess_missing, if_pos ⟨hskip, hidx⟩] at hmem
  rcases hv : climate_vars.filter (fun cv => !cv.is_reference) with - | ⟨cv0, cvs⟩
  · exact absurd hv hvars
  rw [hv, List.map_cons] at hmem
  apply handle_missing_values_masks maskLabels _ _ result l v hmem
  rcases hflag with hany | hnot
  · left
    rw [hv, List.any_cons] at hany
    simpa [List.any_map] using hany
  · right
    exact hnot

/-- Witness for C6 at a concrete input: a flagged period with a defined
aggregated value 5 comes out undefined. -/
theorem postprocess_missing_masks_witness :
    postprocess_missing "any" (some ()) [clipWitnessVar] [0] (fun _ _ => true)
        [(0, some 5)] = [(0, (none : Option ℚ))] ∧ (none : Option ℚ) = none := by
  have heval : postprocess_missing "any" (some ()) [clipWitnessVar] [0]
      (fun _ _ => true) [(0, some 5)] = [(0, (none : Option ℚ))] := by
    simp [postprocess_missing, _handle_missing_values, reducedMask, clipWitnessVar,
      List.lookup]
  refine ⟨heval, ?_⟩
  exact postprocess_missing_masks "any" (some ()) [clipWitnessVar] [0]
    (fun _ _ => true) [(0, some 5)] 0 none (by decide) rfl
    (by simp [clipWitnessVar]) (by rw [heval]; simp)
    (Or.inl (by simp [clipWitnessVar]))

end Icclim
